import Mathlib

/-!
Verification development for the bank-review harvesting repository.

The file shallowly embeds the algorithmic core of the repository:
* `parse_relative_date` from `data_cleaning_pipeline.py` (relative-date
  normalisation, lines 212-255), together with a model of the Python
  `datetime`/`dateutil.relativedelta` calendar arithmetic it relies on;
* the scroll loops `scroll_search_results` / `scroll_reviews_panel` from
  `google_maps_scraper.py`;
* the field-extraction fallback chains, the record admission rule, the
  review fingerprint and both deduplication passes of
  `extract_branch_links` / `extract_reviews_from_page`.

Machine floats never carry interesting behaviour here (all ratings are
decimal text parsed exactly), so numeric values are modelled with `ℚ`/`Int`.
A Python exception (`ValueError`/`OverflowError` from out-of-range dates) is
modelled with `Except`.
-/

/-- Python exception outcome of an operation (the code under scrutiny can
only raise `ValueError`/`OverflowError` from out-of-range calendar values;
we do not need to distinguish them). -/
inductive PyError where
  | valueError
deriving DecidableEq, Repr

deriving instance DecidableEq for Except

set_option maxRecDepth 40000

/-- A civil calendar date, the payload of `strftime("%Y-%m-%d")`. -/
structure Date where
  year : Int
  month : Nat
  day : Nat
deriving DecidableEq, Repr

/-- A timestamp as held by a Python `datetime` (the result of
`pd.to_datetime(scraped_at)`); proleptic Gregorian calendar. -/
structure DateTime where
  year : Int
  month : Nat
  day : Nat
  hour : Nat
  minute : Nat
  second : Nat
deriving DecidableEq, Repr

/-- Gregorian leap-year rule (as used by Python `datetime`). -/
def isLeapYear (y : Int) : Bool :=
  y % 4 = 0 && (y % 100 ≠ 0 || y % 400 = 0)

/-- Length of a month in the proleptic Gregorian calendar. -/
def daysInMonth (y : Int) (m : Nat) : Nat :=
  if m = 2 then (if isLeapYear y then 29 else 28)
  else if m = 4 ∨ m = 6 ∨ m = 9 ∨ m = 11 then 30
  else 31

/-- Validity of a timestamp: exactly the values a Python `datetime` can
hold (`datetime.MINYEAR = 1`, `datetime.MAXYEAR = 9999`). -/
def DateTime.Valid (t : DateTime) : Prop :=
  1 ≤ t.year ∧ t.year ≤ 9999 ∧
  1 ≤ t.month ∧ t.month ≤ 12 ∧
  1 ≤ t.day ∧ t.day ≤ daysInMonth t.year t.month ∧
  t.hour < 24 ∧ t.minute < 60 ∧ t.second < 60

instance (t : DateTime) : Decidable t.Valid := by
  unfold DateTime.Valid; infer_instance

/-- The calendar date of a timestamp (what `strftime("%Y-%m-%d")` prints). -/
def dateOf (t : DateTime) : Date := ⟨t.year, t.month, t.day⟩

/-- One civil day backwards (exact day arithmetic of `timedelta`). -/
def predCivil : Int × Nat × Nat → Int × Nat × Nat
  | (y, m, d) =>
    if 1 < d then (y, m, d - 1)
    else if 1 < m then (y, m - 1, daysInMonth y (m - 1))
    else (y - 1, 12, 31)

/-- Model of `base - timedelta(days=n)` projected to its date, with the Python
range check: `datetime` raises once the result leaves years 1..9999
(subtraction only moves backwards, so only the lower bound can trip). -/
def subDaysCore (n : Nat) (b : DateTime) : Except PyError Date :=
  let c := predCivil^[n] (b.year, b.month, b.day)
  if 1 ≤ c.1 then .ok ⟨c.1, c.2.1, c.2.2⟩ else .error .valueError

/-- Model of `base - relativedelta(years=n)`: calendar year arithmetic with
end-of-month clamping (`dateutil` clamps Feb 29 to Feb 28), then the
`datetime` constructor's range check. -/
def subYearsCore (n : Nat) (b : DateTime) : Except PyError Date :=
  let y : Int := b.year - n
  if 1 ≤ y ∧ y ≤ 9999 then .ok ⟨y, b.month, min b.day (daysInMonth y b.month)⟩
  else .error .valueError

/-- Model of `base - relativedelta(months=n)`: month-index arithmetic with
end-of-month clamping, then the range check. -/
def subMonthsCore (n : Nat) (b : DateTime) : Except PyError Date :=
  let k : Int := 12 * b.year + ((b.month : Int) - 1) - n
  let y : Int := Int.fdiv k 12
  let m : Nat := (Int.emod k 12).toNat + 1
  if 1 ≤ y ∧ y ≤ 9999 then .ok ⟨y, m, min b.day (daysInMonth y m)⟩
  else .error .valueError

/-- Model of `base - timedelta(hours=n)` projected to its date: an integer number
of hours borrows whole days exactly when the time-of-day runs out; the
sub-hour part of the clock never changes the borrow. -/
def subHoursCore (n : Nat) (b : DateTime) : Except PyError Date :=
  subDaysCore ((n + 23 - b.hour) / 24) b

/-- Model of `base - timedelta(minutes=n)` projected to its date. -/
def subMinutesCore (n : Nat) (b : DateTime) : Except PyError Date :=
  subDaysCore ((n + 1439 - (b.hour * 60 + b.minute)) / 1440) b

/-- Whitespace class of the regex `\s` (ASCII relevant subset:
space, tab, newline, carriage return, vertical tab, form feed). -/
def isWsChar (c : Char) : Bool :=
  c.toNat = 32 || c.toNat = 9 || c.toNat = 10 || c.toNat = 13 ||
  c.toNat = 11 || c.toNat = 12

/-- ASCII digit, the class `\d` on this input domain. -/
def isDigitChar (c : Char) : Bool :=
  48 ≤ c.toNat && c.toNat ≤ 57

/-- The character class `[a-z]`. -/
def isLowerChar (c : Char) : Bool :=
  97 ≤ c.toNat && c.toNat ≤ 122

/-- Python `str.lower()` (the inputs here are ASCII). -/
def pyLower (l : List Char) : List Char := l.map Char.toLower

/-- Python `str.strip()`: drop leading and trailing whitespace. -/
def pyStripList (l : List Char) : List Char :=
  ((l.dropWhile isWsChar).reverse.dropWhile isWsChar).reverse

/-- Value of a digit string, as Python `int()` computes it. -/
def digitsToNat (l : List Char) : Nat :=
  l.foldl (fun acc c => 10 * acc + (c.toNat - 48)) 0

/-- Substring containment, Python's `needle in haystack`. -/
def strContainsSub (needle : List Char) : List Char → Bool
  | [] => needle.isEmpty
  | c :: rest => needle.isPrefixOf (c :: rest) || strContainsSub needle rest

/-- The suffix `\s+([a-z]+)` of the quantifier regex: at least one
whitespace character, then the greedy lowercase-letter capture. -/
def wsUnit (l : List Char) : Option (List Char) :=
  let ws := l.takeWhile isWsChar
  let rest := l.dropWhile isWsChar
  if ws = [] then none
  else
    let letters := rest.takeWhile isLowerChar
    if letters = [] then none else some letters

/-- Model of `re.match(r"(a|an|\d+)\s+([a-z]+)", text)`: anchored at the start,
alternatives tried in order with backtracking (`a`, then `an`, then a
greedy digit run — the classes `\d` and `\s` are disjoint so the greedy
run never needs to shrink). Returns the two captures. -/
def matchQuantUnit (l : List Char) : Option (List Char × List Char) :=
  match l with
  | [] => none
  | c :: rest =>
    if c = 'a' then
      match wsUnit rest with
      | some u => some (['a'], u)
      | none =>
        match rest with
        | c2 :: rest2 =>
          if c2 = 'n' then
            match wsUnit rest2 with
            | some u => some (['a', 'n'], u)
            | none => none
          else none
        | [] => none
    else
      let ds := (c :: rest).takeWhile isDigitChar
      let tail := (c :: rest).dropWhile isDigitChar
      if ds = [] then none
      else
        match wsUnit tail with
        | some u => some (ds, u)
        | none => none

/-- Model of `n = 1 if n_raw in {"a", "an"} else int(n_raw)`. -/
def quantVal (nraw : List Char) : Nat :=
  if nraw = ['a'] ∨ nraw = ['a', 'n'] then 1 else digitsToNat nraw

/-- Body of `parse_relative_date` after lowering/stripping: the literal
phrases, the quantifier-unit pattern, the unit dispatch by substring
containment (in source order), and the fallbacks to the reference date. -/
def parseRelCore (text : List Char) (base : DateTime) : Except PyError Date :=
  if text = "today".toList ∨ text = "now".toList then .ok (dateOf base)
  else if text = "yesterday".toList then subDaysCore 1 base
  else
    match matchQuantUnit text with
    | none => .ok (dateOf base)
    | some (nraw, unit) =>
      let n : Nat := quantVal nraw
      if strContainsSub "year".toList unit then subYearsCore n base
      else if strContainsSub "month".toList unit then subMonthsCore n base
      else if strContainsSub "week".toList unit then subDaysCore (7 * n) base
      else if strContainsSub "day".toList unit then subDaysCore n base
      else if strContainsSub "hour".toList unit then subHoursCore n base
      else if strContainsSub "minute".toList unit then subMinutesCore n base
      else .ok (dateOf base)

/-- Model of `parse_relative_date(relative, scraped_at)` from
`data_cleaning_pipeline.py` (lines 212-255).  The reference timestamp is
taken already parsed (the `pd.to_datetime` boundary); a missing value
(`pd.isna`) is `none`.  The `.ok` payload is the date that
`strftime("%Y-%m-%d")` would print; `.error` is a raised
`ValueError`/`OverflowError`. -/
def parse_relative_date (relative : Option String) (base : DateTime) :
    Except PyError Date :=
  match relative with
  | none => .ok (dateOf base)
  | some r =>
    if r.toList = [] then .ok (dateOf base)
    else parseRelCore (pyStripList (pyLower r.toList)) base

/-- The twelve unit words the spec's pattern `<quantifier> <unit>` admits. -/
def unitWords : List String :=
  ["year", "years", "month", "months", "week", "weeks",
   "day", "days", "hour", "hours", "minute", "minutes"]

/-- Spec-side, following §4.5/§8's words: the date exactly `n` days
before the timestamp — always a date, total on the proleptic calendar
with no range restriction. -/
def specSubDays (n : Nat) (b : DateTime) : Date :=
  ⟨(predCivil^[n] (b.year, b.month, b.day)).1,
   (predCivil^[n] (b.year, b.month, b.day)).2.1,
   (predCivil^[n] (b.year, b.month, b.day)).2.2⟩

/-- Spec-side: the date exactly `n` calendar years before the timestamp,
with end-of-month clamping, total on the proleptic calendar. -/
def specSubYears (n : Nat) (b : DateTime) : Date :=
  ⟨b.year - n, b.month, min b.day (daysInMonth (b.year - n) b.month)⟩

/-- Spec-side: the date exactly `n` calendar months before the timestamp,
with end-of-month clamping, total on the proleptic calendar. -/
def specSubMonths (n : Nat) (b : DateTime) : Date :=
  ⟨Int.fdiv (12 * b.year + ((b.month : Int) - 1) - n) 12,
   (Int.emod (12 * b.year + ((b.month : Int) - 1) - n) 12).toNat + 1,
   min b.day
     (daysInMonth (Int.fdiv (12 * b.year + ((b.month : Int) - 1) - n) 12)
       ((Int.emod (12 * b.year + ((b.month : Int) - 1) - n) 12).toNat + 1))⟩

/-- Spec-side: the date exactly `n` hours before the timestamp (the
integer-hour borrow of whole days, as for `subHoursCore`). -/
def specSubHours (n : Nat) (b : DateTime) : Date :=
  specSubDays ((n + 23 - b.hour) / 24) b

/-- Spec-side: the date exactly `n` minutes before the timestamp. -/
def specSubMinutes (n : Nat) (b : DateTime) : Date :=
  specSubDays ((n + 1439 - (b.hour * 60 + b.minute)) / 1440) b

/-- Spec-side unit table (§4.5/§8): the date exactly `n` units before the
reference — always a date, never an error — calendar-aware with
end-of-month clamping for years/months and fixed-duration subtraction
for weeks/days/hours/minutes, extended proleptically below year 1 where
Python's `datetime` cannot follow. -/
def unitDateBefore (u : String) (n : Nat) (b : DateTime) : Date :=
  if u = "year" ∨ u = "years" then specSubYears n b
  else if u = "month" ∨ u = "months" then specSubMonths n b
  else if u = "week" ∨ u = "weeks" then specSubDays (7 * n) b
  else if u = "day" ∨ u = "days" then specSubDays n b
  else if u = "hour" ∨ u = "hours" then specSubHours n b
  else if u = "minute" ∨ u = "minutes" then specSubMinutes n b
  else dateOf b

/-- The listing-search scroll loop body (`scroll_search_results`,
lines 142-169): each round measures the result count, issues a scroll,
and stops after 3 consecutive rounds without a count change.  `counts i`
is the number of `a.hfpxzc` elements measured at round `i`; the value
returned is the number of rounds (scroll commands) performed. -/
def searchLoopAux (counts : Nat → Nat) : Nat → Nat → Nat → Nat → Nat
  | 0, _, _, _ => 0
  | fuel + 1, i, last, ncc =>
    let cur := counts i
    if cur = last then
      if 3 ≤ ncc + 1 then 1
      else 1 + searchLoopAux counts fuel (i + 1) cur (ncc + 1)
    else 1 + searchLoopAux counts fuel (i + 1) cur 0

/-- Rounds performed by the listing-search scroll loop:
`last_count = 0`, `no_change_count = 0`, `max_scrolls = 20`. -/
def searchScrollRounds (counts : Nat → Nat) : Nat :=
  searchLoopAux counts 20 0 0 0

/-- The reviews-panel scroll loop body (`scroll_reviews_panel`,
lines 339-357): each of at most 10 rounds scrolls and then measures the
container's `scrollHeight`; the loop stops as soon as the measured height
equals the previous round's height.  `heights i` is the height measured
after the scroll of round `i`. -/
def reviewsLoopAux (heights : Nat → Nat) : Nat → Nat → Nat → Nat
  | 0, _, _ => 0
  | fuel + 1, i, last =>
    if heights i = last then 1
    else 1 + reviewsLoopAux heights fuel (i + 1) (heights i)

/-- Rounds performed by the reviews-panel scroll loop
(`last_height = 0`, cap 10). -/
def reviewsScrollRounds (heights : Nat → Nat) : Nat :=
  reviewsLoopAux heights 10 0 0

/-- Environment of one `scroll_search_results` call: the `scrollHeight`
of each candidate scrollable div (in DOM order), and the per-round
result-count measurements. -/
structure SearchEnv where
  divHeights : List Nat
  counts : Nat → Nat

/-- Environment of one `scroll_reviews_panel` call: the `scrollHeight`
of each candidate container (across the selector list, in order), and
the per-round height measurements. -/
structure ReviewsPanelEnv where
  candidateHeights : List Nat
  heights : Nat → Nat

/-- Observable outcome of a scroll-controller call: the number of scroll
rounds performed, and the value returned to the caller.  Both Python
functions are annotated `-> None` and every path returns bare `return`,
so the returned value is always `none`; `Option Nat` makes the returned
value comparable with the count the spec says is returned. -/
structure ScrollOutcome where
  rounds : Nat
  retval : Option Nat
deriving DecidableEq, Repr

/-- Model of `scroll_search_results` (lines 113-172): pick the first candidate
div with positive `scrollHeight`; with no candidate (or none scrollable)
log a warning and return having performed no scroll rounds; otherwise run
the stability loop.  The function extracts no data and returns `None`. -/
def scroll_search_results (env : SearchEnv) : ScrollOutcome :=
  match env.divHeights.find? (fun h => decide (0 < h)) with
  | none => ⟨0, none⟩
  | some _ => ⟨searchScrollRounds env.counts, none⟩

/-- Model of `scroll_reviews_panel` (lines 309-361): pick the first candidate
container with `scrollHeight > 500`; with none, log a warning and return
having performed no rounds; otherwise run the height loop.  The function
extracts no data and returns `None`. -/
def scroll_reviews_panel (env : ReviewsPanelEnv) : ScrollOutcome :=
  match env.candidateHeights.find? (fun h => decide (500 < h)) with
  | none => ⟨0, none⟩
  | some _ => ⟨reviewsScrollRounds env.heights, none⟩

/-- A Python runtime number as it reaches a record field: the scraper
mixes `float(...)` results with `int` literals/counts, and `str()` of the
two differs (`"3.0"` vs `"3"`), which matters to the fingerprint. -/
inductive PyNum where
  | pint (n : Int)
  | pfloat (q : ℚ)
deriving DecidableEq, Repr

/-- Numeric value of a Python number. -/
def pyVal : PyNum → ℚ
  | .pint n => (n : ℚ)
  | .pfloat q => q

/-- Python `str()` of a number.  Every `float` reaching a fingerprint in
this code is `float(<digits>)`, hence integral, printed `"<n>.0"`; the
non-integral fallback is unreachable there and only needs to be some
fixed rendering. -/
def pyShow : PyNum → String
  | .pint n => toString n
  | .pfloat q => if q.den = 1 then toString q.num ++ ".0" else toString q

/-- One candidate review block (`extract_reviews_from_page`): for each
configured CSS selector, in order, the stripped text the selector finds
(`none` = locator throws `NoSuchElementException`); the star image's
`aria-label` if located; the count of filled-star elements found by the
fallback `find_elements`; and the block's on-page `element.location`. -/
structure ReviewBlock where
  nameResults : List (Option String)
  ariaLabel : Option String
  filledStars : Nat
  textResults : List (Option String)
  dateResults : List (Option String)
  loc : Int × Int
deriving DecidableEq, Repr

/-- The per-field selector loop of `extract_reviews_from_page` (lines
411-431, 452-471, 473-490): `field = default`, then for each selector
that locates content the field is assigned the located text and the loop
breaks only if the text passes the validity check — an invalid located
text stays assigned while later selectors are tried. -/
def chainField (cur : String) (valid : String → Bool) :
    List (Option String) → String
  | [] => cur
  | none :: rest => chainField cur valid rest
  | some t :: rest => if valid t then t else chainField t valid rest

/-- Validity check of the reviewer-name loop:
`if reviewer_name and reviewer_name != "More"`. -/
def nameValid (t : String) : Bool := t != "" && t != "More"

/-- Validity check of the body loop:
`if review_text and review_text != "More" and len(review_text) > 5`. -/
def textValid (t : String) : Bool :=
  t != "" && t != "More" && decide (5 < t.length)

/-- Validity check of the date loop: non-empty and containing one of the
time words `ago`/`year`/`month`/`day`/`week` after lowering. -/
def dateValid (t : String) : Bool :=
  t != "" &&
  (strContainsSub "ago".toList (pyLower t.toList) ||
   strContainsSub "year".toList (pyLower t.toList) ||
   strContainsSub "month".toList (pyLower t.toList) ||
   strContainsSub "day".toList (pyLower t.toList) ||
   strContainsSub "week".toList (pyLower t.toList))

def extractReviewerName (b : ReviewBlock) : String :=
  chainField "Anonymous" nameValid b.nameResults

def extractReviewText (b : ReviewBlock) : String :=
  chainField "" textValid b.textResults

def extractReviewDate (b : ReviewBlock) : String :=
  chainField "" dateValid b.dateResults

/-- Model of `re.search(r'(\d+)\s*star', rating_text)`: leftmost position whose
greedy digit run, after optional whitespace, is followed by `star`;
returns the digit capture.  (Shrinking the greedy run cannot help: the
character after a shortened run is a digit, never `s` or whitespace.) -/
def regexStarSearch : List Char → Option (List Char)
  | [] => none
  | c :: rest =>
    if isDigitChar c then
      let ds := (c :: rest).takeWhile isDigitChar
      let tail := ((c :: rest).dropWhile isDigitChar).dropWhile isWsChar
      if "star".toList.isPrefixOf tail then some ds else regexStarSearch rest
    else regexStarSearch rest

/-- The rating extraction of `extract_reviews_from_page` (lines 432-450):
`rating = 0`; the aria-label strategy is tried first, and the
filled-star-count fallback runs only when that locator throws — an
aria-label that merely fails the regex leaves the rating 0 without
trying the fallback.  The aria path yields a `float`, the star count an
`int`. -/
def extractRating (b : ReviewBlock) : PyNum :=
  match b.ariaLabel with
  | some lbl =>
    match regexStarSearch lbl.toList with
    | some ds => .pfloat (mkRat (digitsToNat ds) 1)
    | none => .pint 0
  | none =>
    if b.filledStars ≠ 0 then .pint (b.filledStars : Int) else .pint 0

/-- The `BankBranch` dataclass of `google_maps_scraper.py`. -/
structure BankBranch where
  bank_name : String
  branch_name : String
  branch_url : String
  address : String
  rating : Option ℚ := none
  review_count : Option Int := none
deriving DecidableEq, Repr

/-- The `Review` dataclass of `google_maps_scraper.py` (`scraped_at` is a
session constant irrelevant to the harvested fields and kept abstract as
the empty string; `rating` is the runtime int-or-float). -/
structure Review where
  bank_name : String
  branch_name : String
  branch_address : String
  branch_url : String
  reviewer_name : String
  rating : PyNum
  review_text : String
  review_date : String
  helpful_count : Int := 0
  response_from_owner : Option String := none
  scraped_at : String := ""
deriving DecidableEq, Repr

/-- The four extracted fields of one review block, as they stand when
control reaches the fingerprint/admission code (line 493). -/
structure Extracted where
  reviewer_name : String
  rating : PyNum
  review_text : String
  review_date : String
deriving DecidableEq, Repr

def fieldsOf (b : ReviewBlock) : Extracted :=
  ⟨extractReviewerName b, extractRating b, extractReviewText b,
   extractReviewDate b⟩

/-- The review fingerprint (line 493):
`f"{reviewer_name}|{rating}|{review_text[:50] if review_text else ''}|{review_date}"`
(an empty body slices to the empty string either way). -/
def reviewKey (e : Extracted) : String :=
  e.reviewer_name ++ "|" ++ pyShow e.rating ++ "|" ++
    e.review_text.take 50 ++ "|" ++ e.review_date

/-- The admission signal (line 496):
`rating > 0 or (review_text and len(review_text) > 5)`. -/
def signalOk (e : Extracted) : Bool :=
  decide (0 < pyVal e.rating) ||
    (e.review_text != "" && decide (5 < e.review_text.length))

def mkReview (br : BankBranch) (e : Extracted) : Review :=
  { bank_name := br.bank_name
    branch_name := br.branch_name
    branch_address := br.address
    branch_url := br.branch_url
    reviewer_name := e.reviewer_name
    rating := e.rating
    review_text := e.review_text
    review_date := e.review_date }

/-- One pass of the admission code (lines 492-514) over the state
`(seen_reviews, reviews)`: append the record and record its fingerprint
iff the fingerprint is fresh and the signal holds; otherwise leave the
state untouched (silent skip). -/
def reviewStep (br : BankBranch) (st : List String × List Review)
    (e : Extracted) : List String × List Review :=
  if !(st.1.contains (reviewKey e)) && signalOk e then
    (st.1 ++ [reviewKey e], st.2 ++ [mkReview br e])
  else st

/-- The admission loop over the extracted records of one detail-page
visit: `seen_reviews = set()`, `reviews = []` are fresh per call. -/
def admitReviews (br : BankBranch) (es : List Extracted) : List Review :=
  (es.foldl (reviewStep br) ([], [])).2

/-- Geometric-location key (line 398): `f"{location['x']},{location['y']}"`. -/
def locKey (b : ReviewBlock) : String :=
  toString b.loc.1 ++ "," ++ toString b.loc.2

/-- Location-based pre-dedup of review candidate blocks (lines 391-405):
keep the first block at each on-page position. -/
def locDedupAux (seen : List String) : List ReviewBlock → List ReviewBlock
  | [] => []
  | b :: rest =>
    if seen.contains (locKey b) then locDedupAux seen rest
    else b :: locDedupAux (seen ++ [locKey b]) rest

def locDedup (blocks : List ReviewBlock) : List ReviewBlock :=
  locDedupAux [] blocks

/-- Model of `extract_reviews_from_page` (lines 363-525): location pre-dedup of
the candidate blocks, then per-block field extraction followed by
fingerprint admission. -/
def extract_reviews_from_page (br : BankBranch) (blocks : List ReviewBlock) :
    List Review :=
  admitReviews br ((locDedup blocks).map fieldsOf)

/-- One candidate result block of a listing page
(`extract_branch_links`): the link's `href`, the headline text if
located, the `W4Efsd` div texts, the rating span text and review-count
span text if located, and the block's on-page position (carried by every
rendered element; `extract_branch_links` never reads it). -/
structure ListingBlock where
  url : String
  nameText : Option String
  addrTexts : List String
  ratingText : Option String
  reviewCountText : Option String
  loc : Int × Int
deriving DecidableEq, Repr

/-- Python `float(text)` on the decimal forms occurring here
(`<digits>`, `<digits>.<digits>`, `<digits>.`, `.<digits>`); other
accepted spellings (signs, exponents, `inf`) never appear in rating
spans and are not modelled.  `none` is a raised `ValueError`. -/
def pyFloatParse (s : String) : Option ℚ :=
  let l := s.toList
  let intPart := l.takeWhile isDigitChar
  match l.dropWhile isDigitChar with
  | [] => if intPart = [] then none else some (mkRat (digitsToNat intPart) 1)
  | '.' :: frac =>
    if frac.all isDigitChar && !(intPart = [] && frac = []) then
      some (mkRat (digitsToNat intPart * 10 ^ frac.length + digitsToNat frac)
        (10 ^ frac.length))
    else none
  | _ => none

/-- Python `int(text)` on plain digit strings; `none` is a `ValueError`. -/
def pyIntParse (s : String) : Option Int :=
  let l := s.toList
  if !l.isEmpty && l.all isDigitChar then some (digitsToNat l : Int) else none

/-- Python `text.strip("()")`. -/
def stripParens (s : String) : String :=
  let inParens : Char → Bool := fun c => c = '(' || c = ')'
  ⟨((s.toList.dropWhile inParens).reverse.dropWhile inParens).reverse⟩

/-- The rating of one listing block (lines 215-226): `rating = None`,
then inside one `try`: `rating = float(span.MW4etd text)`.  A locator
miss or a parse failure raises, is swallowed, and leaves `None`. -/
def branchRating (b : ListingBlock) : Option ℚ :=
  match b.ratingText with
  | none => none
  | some t => pyFloatParse t

/-- The review count of one listing block: attempted inside the same
`try`, after the rating assignment, so it stays `None` whenever the
rating failed; its own locate/parse failure leaves it `None` while the
already-assigned rating survives. -/
def branchReviewCount (b : ListingBlock) : Option Int :=
  match branchRating b with
  | none => none
  | some _ =>
    match b.reviewCountText with
    | none => none
    | some t => pyIntParse (stripParens t)

/-- The address loop (lines 199-213): first `W4Efsd` div whose lowered
text contains one of the markers; split on `·` and take the second part
stripped, else the whole text; no matching div leaves the empty string. -/
def addrMarker (t : String) : Bool :=
  strContainsSub "bd".toList (pyLower t.toList) ||
  strContainsSub "avenue".toList (pyLower t.toList) ||
  strContainsSub "rue".toList (pyLower t.toList) ||
  strContainsSub "street".toList (pyLower t.toList) ||
  strContainsSub "·".toList (pyLower t.toList)

/-- Python `text.split(sep)` for a single-character separator. -/
def splitOnChar (sep : Char) : List Char → List (List Char)
  | [] => [[]]
  | c :: rest =>
    if c = sep then [] :: splitOnChar sep rest
    else
      match splitOnChar sep rest with
      | [] => [[c]]
      | h :: t => (c :: h) :: t

def addrOf : List String → String
  | [] => ""
  | t :: rest =>
    if addrMarker t then
      match splitOnChar '·' t.toList with
      | _ :: p1 :: _ => ⟨pyStripList p1⟩
      | _ => t
    else addrOf rest

/-- Field extraction for one listing block (lines 183-238). -/
def extractBranch (bank : String) (b : ListingBlock) : BankBranch :=
  { bank_name := bank
    branch_name := b.nameText.getD bank
    branch_url := b.url
    address := addrOf b.addrTexts
    rating := branchRating b
    review_count := branchReviewCount b }

/-- URL dedup of extracted branches (lines 244-250): keep the first
branch carrying each URL. -/
def urlDedupAux (seen : List String) : List BankBranch → List BankBranch
  | [] => []
  | br :: rest =>
    if seen.contains br.branch_url then urlDedupAux seen rest
    else br :: urlDedupAux (seen ++ [br.branch_url]) rest

/-- Model of `extract_branch_links` (lines 174-257): extract a `BankBranch` from
every candidate block (no position filtering), then dedup by URL. -/
def extract_branch_links (bank : String) (blocks : List ListingBlock) :
    List BankBranch :=
  urlDedupAux [] (blocks.map (extractBranch bank))

/-- Bound on the numeric content a review block's rating sources carry:
the aria-label digits parse to at most 5, or — when the aria-label
locator throws — at most 5 filled stars are counted. -/
def ratingSourceBounded (b : ReviewBlock) : Bool :=
  match b.ariaLabel with
  | some lbl =>
    match regexStarSearch lbl.toList with
    | some ds => decide (digitsToNat ds ≤ 5)
    | none => true
  | none => decide (b.filledStars ≤ 5)

/-- Bound on the numeric content of a listing block's rating text. -/
def branchRatingBounded (b : ListingBlock) : Bool :=
  match b.ratingText with
  | none => true
  | some t =>
    match pyFloatParse t with
    | none => true
    | some q => decide (0 ≤ q ∧ q ≤ 5)

lemma digitBounds {c : Char} (h : isDigitChar c = true) :
    48 ≤ c.toNat ∧ c.toNat ≤ 57 := by
  simpa [isDigitChar] using h

lemma digitToLower {c : Char} (h : isDigitChar c = true) : c.toLower = c := by
  have hb := digitBounds h
  simp only [Char.toLower]
  rw [if_neg]
  omega

lemma digitNotWs {c : Char} (h : isDigitChar c = true) : isWsChar c = false := by
  have hb := digitBounds h
  simp only [isWsChar, Bool.or_eq_false_iff, decide_eq_false_iff_not]
  omega

lemma digitNeChar {c : Char} (h : isDigitChar c = true) {d : Char}
    (hd : isDigitChar d = false) : c ≠ d := by
  rintro rfl
  rw [h] at hd
  cases hd

lemma mapIdOn {α : Type} (f : α → α) :
    ∀ l : List α, (∀ x ∈ l, f x = x) → l.map f = l := by
  intro l
  induction l with
  | nil => intro; rfl
  | cons a l ih =>
    intro h
    simp only [List.map_cons, h a (by simp), ih fun x hx => h x (by simp [hx])]

lemma takeWhileAppendCons {p : Char → Bool} (l : List Char) (d : Char)
    (rest : List Char) (hl : ∀ c ∈ l, p c = true) (hd : p d = false) :
    ((l ++ d :: rest).takeWhile p) = l := by
  induction l with
  | nil => simp [List.takeWhile_cons, hd]
  | cons c l ih =>
    have hc := hl c (by simp)
    simp only [List.cons_append, List.takeWhile_cons, hc, if_true]
    rw [ih fun x hx => hl x (by simp [hx])]

lemma dropWhileAppendCons {p : Char → Bool} (l : List Char) (d : Char)
    (rest : List Char) (hl : ∀ c ∈ l, p c = true) (hd : p d = false) :
    ((l ++ d :: rest).dropWhile p) = d :: rest := by
  induction l with
  | nil => simp [List.dropWhile_cons, hd]
  | cons c l ih =>
    have hc := hl c (by simp)
    simp only [List.cons_append, List.dropWhile_cons, hc, if_true]
    exact ih fun x hx => hl x (by simp [hx])

/-- The quantifier regex on a phrase `<digits><space><tail>`: the digit
run is captured whole and the unit capture comes from `\s+([a-z]+)` on
the remainder. -/
lemma matchQuantDigits (ds tail : List Char) (hne : ds ≠ [])
    (hdig : ∀ c ∈ ds, isDigitChar c = true) :
    matchQuantUnit (ds ++ ' ' :: tail) =
      (wsUnit (' ' :: tail)).map fun u => (ds, u) := by
  obtain ⟨c, ds', rfl⟩ : ∃ c ds', ds = c :: ds' := by
    cases ds with
    | nil => exact absurd rfl hne
    | cons c ds' => exact ⟨c, ds', rfl⟩
  have hc := hdig c (by simp)
  have hca : c ≠ 'a' := digitNeChar hc (by decide)
  have hsp : isDigitChar ' ' = false := by decide
  simp only [List.cons_append, matchQuantUnit, if_neg hca]
  rw [show c :: (ds' ++ ' ' :: tail) = (c :: ds') ++ ' ' :: tail from rfl]
  rw [takeWhileAppendCons _ _ _ hdig hsp, dropWhileAppendCons _ _ _ hdig hsp]
  rw [if_neg hne]
  cases wsUnit (' ' :: tail) <;> rfl

/-- Behaviour of `parse_relative_date` on a canonical phrase built from a digit string:
the wrapper, lowering and stripping all act as identity and control
reaches the regex with the phrase intact. -/
lemma parseReduce (ds tail : List Char) (d : Char) (base : DateTime)
    (hne : ds ≠ []) (hdig : ∀ c ∈ ds, isDigitChar c = true)
    (hlow : ∀ x ∈ ' ' :: (tail ++ [d]), x.toLower = x)
    (hd : isWsChar d = false) :
    parse_relative_date (some (String.mk (ds ++ ' ' :: (tail ++ [d])))) base
      = parseRelCore (ds ++ ' ' :: (tail ++ [d])) base := by
  obtain ⟨c, ds', rfl⟩ : ∃ c ds', ds = c :: ds' := by
    cases ds with
    | nil => exact absurd rfl hne
    | cons c ds' => exact ⟨c, ds', rfl⟩
  have hc := hdig c (by simp)
  simp only [parse_relative_date]
  rw [show (String.mk ((c :: ds') ++ ' ' :: (tail ++ [d]))).toList
        = (c :: ds') ++ ' ' :: (tail ++ [d]) from rfl]
  rw [if_neg (by simp)]
  have hlower : pyLower ((c :: ds') ++ ' ' :: (tail ++ [d]))
      = (c :: ds') ++ ' ' :: (tail ++ [d]) := by
    unfold pyLower
    rw [List.map_append, mapIdOn _ _ fun x hx => digitToLower (hdig x hx)]
    rw [show (' ' :: (tail ++ [d])).map Char.toLower = ' ' :: (tail ++ [d]) from
      mapIdOn _ _ hlow]
  have hstrip : pyStripList ((c :: ds') ++ ' ' :: (tail ++ [d]))
      = (c :: ds') ++ ' ' :: (tail ++ [d]) := by
    unfold pyStripList
    rw [show (c :: ds') ++ ' ' :: (tail ++ [d])
          = c :: (ds' ++ ' ' :: (tail ++ [d])) from rfl]
    rw [List.dropWhile_cons_of_neg (by rw [digitNotWs hc]; exact Bool.false_ne_true)]
    rw [show c :: (ds' ++ ' ' :: (tail ++ [d]))
          = (c :: ds' ++ ' ' :: tail) ++ [d] from by simp]
    rw [List.reverse_append, List.reverse_singleton, List.singleton_append]
    rw [List.dropWhile_cons_of_neg (by rw [hd]; exact Bool.false_ne_true)]
    simp
  rw [hlower, hstrip]

/-- Digit-led phrases are never the literals `today`/`now`/`yesterday`,
and their quantifier is never `a`/`an`; `parseRelCore` therefore reaches
the unit dispatch with `n = int(digits)`. -/
lemma parseRelCoreDigits (ds tail : List Char) (base : DateTime)
    (hne : ds ≠ []) (hdig : ∀ c ∈ ds, isDigitChar c = true) :
    parseRelCore (ds ++ ' ' :: tail) base =
      match wsUnit (' ' :: tail) with
      | none => .ok (dateOf base)
      | some unit =>
        if strContainsSub "year".toList unit then subYearsCore (digitsToNat ds) base
        else if strContainsSub "month".toList unit then subMonthsCore (digitsToNat ds) base
        else if strContainsSub "week".toList unit then subDaysCore (7 * digitsToNat ds) base
        else if strContainsSub "day".toList unit then subDaysCore (digitsToNat ds) base
        else if strContainsSub "hour".toList unit then subHoursCore (digitsToNat ds) base
        else if strContainsSub "minute".toList unit then subMinutesCore (digitsToNat ds) base
        else .ok (dateOf base) := by
  obtain ⟨c, ds', rfl⟩ : ∃ c ds', ds = c :: ds' := by
    cases ds with
    | nil => exact absurd rfl hne
    | cons c ds' => exact ⟨c, ds', rfl⟩
  have hc := hdig c (by simp)
  have hneT : (c :: ds') ++ ' ' :: tail ≠ "today".toList := by
    rw [List.cons_append]
    intro h
    injection h with h1 _
    exact digitNeChar hc (by decide) h1
  have hneN : (c :: ds') ++ ' ' :: tail ≠ "now".toList := by
    rw [List.cons_append]
    intro h
    injection h with h1 _
    exact digitNeChar hc (by decide) h1
  have hneY : (c :: ds') ++ ' ' :: tail ≠ "yesterday".toList := by
    rw [List.cons_append]
    intro h
    injection h with h1 _
    exact digitNeChar hc (by decide) h1
  have hqv : quantVal (c :: ds') = digitsToNat (c :: ds') := by
    unfold quantVal
    rw [if_neg]
    rintro (h | h) <;> (injection h with h1 _; exact digitNeChar hc (by decide) h1)
  unfold parseRelCore
  rw [if_neg (by rintro (h | h); exacts [hneT h, hneN h]), if_neg hneY]
  rw [matchQuantDigits _ _ hne hdig]
  cases wsUnit (' ' :: tail) with
  | none => rfl
  | some u => simp only [Option.map_some', hqv]

lemma subDaysCoreOk (n : Nat) (b : DateTime)
    (h : 1 ≤ (specSubDays n b).year) :
    subDaysCore n b = .ok (specSubDays n b) := by
  have h2 : 1 ≤ (predCivil^[n] (b.year, b.month, b.day)).1 := h
  simp only [subDaysCore, specSubDays]
  rw [if_pos h2]

lemma subYearsCoreOk (n : Nat) (b : DateTime) (hy : b.year ≤ 9999)
    (h : 1 ≤ (specSubYears n b).year) :
    subYearsCore n b = .ok (specSubYears n b) := by
  have h2 : 1 ≤ b.year - (n : Int) := h
  simp only [subYearsCore, specSubYears]
  rw [if_pos ⟨h2, by omega⟩]

lemma subMonthsCoreOk (n : Nat) (b : DateTime) (hy : b.year ≤ 9999)
    (hm : b.month ≤ 12)
    (h : 1 ≤ (specSubMonths n b).year) :
    subMonthsCore n b = .ok (specSubMonths n b) := by
  have h2 : 1 ≤ Int.fdiv (12 * b.year + ((b.month : Int) - 1) - n) 12 := h
  have hconv : Int.fdiv (12 * b.year + ((b.month : Int) - 1) - n) 12
      = (12 * b.year + ((b.month : Int) - 1) - n) / 12 :=
    Int.fdiv_eq_ediv _ (by omega)
  simp only [subMonthsCore, specSubMonths]
  rw [if_pos ⟨h2, by rw [hconv]; omega⟩]

lemma subHoursCoreOk (n : Nat) (b : DateTime)
    (h : 1 ≤ (specSubHours n b).year) :
    subHoursCore n b = .ok (specSubHours n b) :=
  subDaysCoreOk _ b h

lemma subMinutesCoreOk (n : Nat) (b : DateTime)
    (h : 1 ≤ (specSubMinutes n b).year) :
    subMinutesCore n b = .ok (specSubMinutes n b) :=
  subDaysCoreOk _ b h

/-- C1 counterexample: the claim as frozen promises a returned date for
every digit-string quantifier, but `"3000 years ago"` (target year -975)
makes the code raise `ValueError` instead of returning the date exactly
3000 years before the reference. -/
theorem c1_units_counterexample :
    parse_relative_date (some "3000 years ago") ⟨2025, 6, 15, 0, 0, 0⟩
        = .error .valueError
    ∧ ∀ d : Date, parse_relative_date (some "3000 years ago") ⟨2025, 6, 15, 0, 0, 0⟩
        ≠ .ok d := by
  refine ⟨by decide, fun d h => ?_⟩
  rw [(by decide : parse_relative_date (some "3000 years ago") ⟨2025, 6, 15, 0, 0, 0⟩
        = .error .valueError)] at h
  exact Except.noConfusion h

/-- C1 (amended): for every valid reference timestamp and every phrase
`<digits> <unit> ago` with the unit one of year/month/week/day/hour/minute
(singular or plural) whose target date stays within `datetime`'s
representable years (year ≥ 1), `parse_relative_date` returns exactly
the date `n` units before the reference (`unitDateBefore`):
calendar-aware arithmetic with end-of-month clamping for years and
months, fixed-duration subtraction for weeks, days, hours and minutes;
a target before year 1 raises instead (see the counterexample).  In
particular `normalize("3 months ago", 2025-06-15T00:00:00) = 2025-03-15`,
and for every unit word the quantifiers `a`/`an` mean 1:
`normalize("a <unit> ago", T)` and `normalize("an <unit> ago", T)` both
equal `normalize("1 <unit> ago", T)` for every reference `T`. -/
theorem c1_normalize_relative_phrases
    (ds : List Char) (u : String) (base : DateTime)
    (hval : base.Valid) (hne : ds ≠ [])
    (hdig : ∀ c ∈ ds, isDigitChar c = true) (hu : u ∈ unitWords)
    (hrange : 1 ≤ (unitDateBefore u (digitsToNat ds) base).year) :
    parse_relative_date
        (some (String.mk (ds ++ ' ' :: (u.toList ++ ' ' :: ['a', 'g', 'o'])))) base
      = .ok (unitDateBefore u (digitsToNat ds) base)
    ∧ parse_relative_date (some "3 months ago") ⟨2025, 6, 15, 0, 0, 0⟩
        = .ok ⟨2025, 3, 15⟩
    ∧ ∀ T : DateTime, ∀ v ∈ unitWords,
        parse_relative_date (some ("a " ++ v ++ " ago")) T
          = parse_relative_date (some ("1 " ++ v ++ " ago")) T
        ∧ parse_relative_date (some ("an " ++ v ++ " ago")) T
          = parse_relative_date (some ("1 " ++ v ++ " ago")) T := by
  obtain ⟨_, hy, _, hm, _⟩ := hval
  refine ⟨?_, by decide, fun T v hv => by fin_cases hv <;> exact ⟨rfl, rfl⟩⟩
  rw [show u.toList ++ ' ' :: ['a', 'g', 'o']
        = (u.toList ++ [' ', 'a', 'g']) ++ ['o'] from by simp]
  fin_cases hu <;>
    rw [parseReduce ds _ 'o' base hne hdig (by decide) (by decide),
        parseRelCoreDigits ds _ base hne hdig] <;>
    first
    | exact subYearsCoreOk (digitsToNat ds) base hy hrange
    | exact subMonthsCoreOk (digitsToNat ds) base hy hm hrange
    | exact subDaysCoreOk (7 * digitsToNat ds) base hrange
    | exact subDaysCoreOk (digitsToNat ds) base hrange
    | exact subHoursCoreOk (digitsToNat ds) base hrange
    | exact subMinutesCoreOk (digitsToNat ds) base hrange

/-- Witness for C1 at the spec's own example: `"3 months ago"` against
reference 2025-06-15T00:00:00, whose target 2025-03-15 is in range. -/
theorem c1_normalize_relative_phrases_witness :
    parse_relative_date
        (some (String.mk (['3'] ++ ' ' :: ("months".toList ++ ' ' :: ['a', 'g', 'o']))))
        ⟨2025, 6, 15, 0, 0, 0⟩
      = .ok (unitDateBefore "months" (digitsToNat ['3']) ⟨2025, 6, 15, 0, 0, 0⟩) :=
  (c1_normalize_relative_phrases ['3'] "months" ⟨2025, 6, 15, 0, 0, 0⟩
    (by decide) (by decide) (by decide) (by decide) (by decide)).1

/-- C2 counterexample: the claim says the normalizer is total for
arbitrary quantifier magnitudes, but `"5000 years ago"` drives the
target year to -2975, below `datetime.MINYEAR = 1`, and the Python code
raises `ValueError` instead of returning a date. -/
theorem c2_total_counterexample :
    parse_relative_date (some "5000 years ago") ⟨2025, 6, 15, 0, 0, 0⟩
        = .error .valueError
    ∧ ∀ d : Date, parse_relative_date (some "5000 years ago") ⟨2025, 6, 15, 0, 0, 0⟩
        ≠ .ok d := by
  refine ⟨by decide, fun d h => ?_⟩
  rw [(by decide : parse_relative_date (some "5000 years ago") ⟨2025, 6, 15, 0, 0, 0⟩
        = .error .valueError)] at h
  exact Except.noConfusion h

/-- C2 (amended): the normalizer never raises on any degradation path —
missing input, empty input, the literals `today`/`now`, phrases that do
not match `(a|an|\d+)\s+([a-z]+)`, and matched phrases with an
unrecognized unit all return `date(T)`; only matched phrases (and
`yesterday`) whose computed target date leaves the representable year
range 1..9999 raise. -/
theorem c2_normalizer_degradation :
    (∀ base : DateTime, parse_relative_date none base = .ok (dateOf base))
    ∧ (∀ base : DateTime, parse_relative_date (some "") base = .ok (dateOf base))
    ∧ (∀ base : DateTime, parse_relative_date (some "today") base = .ok (dateOf base))
    ∧ (∀ base : DateTime, parse_relative_date (some "now") base = .ok (dateOf base))
    ∧ (∀ (base : DateTime) (s : String),
        pyStripList (pyLower s.toList) ≠ "yesterday".toList →
        matchQuantUnit (pyStripList (pyLower s.toList)) = none →
        parse_relative_date (some s) base = .ok (dateOf base))
    ∧ (∀ (base : DateTime) (s : String) (nraw unit : List Char),
        matchQuantUnit (pyStripList (pyLower s.toList)) = some (nraw, unit) →
        strContainsSub "year".toList unit = false →
        strContainsSub "month".toList unit = false →
        strContainsSub "week".toList unit = false →
        strContainsSub "day".toList unit = false →
        strContainsSub "hour".toList unit = false →
        strContainsSub "minute".toList unit = false →
        parse_relative_date (some s) base = .ok (dateOf base)) := by
  refine ⟨fun base => rfl, fun base => rfl, fun base => rfl, fun base => rfl,
    ?_, ?_⟩
  · intro base s h1 h2
    show (if s.toList = [] then Except.ok (dateOf base)
          else parseRelCore (pyStripList (pyLower s.toList)) base)
        = Except.ok (dateOf base)
    by_cases he : s.toList = []
    · rw [if_pos he]
    · rw [if_neg he]
      unfold parseRelCore
      by_cases ht : pyStripList (pyLower s.toList) = "today".toList ∨
          pyStripList (pyLower s.toList) = "now".toList
      · rw [if_pos ht]
      · rw [if_neg ht, if_neg h1, h2]
  · intro base s nraw unit hm hy hmo hw hd hh hmi
    show (if s.toList = [] then Except.ok (dateOf base)
          else parseRelCore (pyStripList (pyLower s.toList)) base)
        = Except.ok (dateOf base)
    by_cases he : s.toList = []
    · rw [if_pos he]
    · rw [if_neg he]
      unfold parseRelCore
      by_cases ht : pyStripList (pyLower s.toList) = "today".toList ∨
          pyStripList (pyLower s.toList) = "now".toList
      · rw [if_pos ht]
      · have h1 : pyStripList (pyLower s.toList) ≠ "yesterday".toList := by
          intro hcontra
          rw [hcontra] at hm
          exact Option.noConfusion ((by decide :
            matchQuantUnit "yesterday".toList = none) ▸ hm)
        rw [if_neg ht, if_neg h1, hm]
        simp only [show ("year".toList : List Char) = ['y', 'e', 'a', 'r'] from rfl,
          show ("month".toList : List Char) = ['m', 'o', 'n', 't', 'h'] from rfl,
          show ("week".toList : List Char) = ['w', 'e', 'e', 'k'] from rfl,
          show ("day".toList : List Char) = ['d', 'a', 'y'] from rfl,
          show ("hour".toList : List Char) = ['h', 'o', 'u', 'r'] from rfl,
          show ("minute".toList : List Char) = ['m', 'i', 'n', 'u', 't', 'e'] from rfl]
          at hy hmo hw hd hh hmi
        simp [hy, hmo, hw, hd, hh, hmi]

/-- Witness for C2's degradation clauses at concrete unmatched and
unrecognized-unit inputs. -/
theorem c2_normalizer_degradation_witness :
    parse_relative_date (some "hello") ⟨2025, 6, 15, 0, 0, 0⟩
        = .ok (dateOf ⟨2025, 6, 15, 0, 0, 0⟩)
    ∧ parse_relative_date (some "3 frobs ago") ⟨2025, 6, 15, 0, 0, 0⟩
        = .ok (dateOf ⟨2025, 6, 15, 0, 0, 0⟩) :=
  ⟨c2_normalizer_degradation.2.2.2.2.1 ⟨2025, 6, 15, 0, 0, 0⟩ "hello"
      (by decide) (by decide),
   c2_normalizer_degradation.2.2.2.2.2 ⟨2025, 6, 15, 0, 0, 0⟩ "3 frobs ago"
      ['3'] "frobs".toList (by decide) (by decide) (by decide) (by decide)
      (by decide) (by decide) (by decide)⟩

lemma searchLoopAuxLe (counts : Nat → Nat) :
    ∀ (fuel i last ncc : Nat), searchLoopAux counts fuel i last ncc ≤ fuel := by
  intro fuel
  induction fuel with
  | zero => intro i last ncc; exact Nat.le_refl 0
  | succ fuel ih =>
    intro i last ncc
    unfold searchLoopAux
    by_cases h : counts i = last
    · rw [if_pos h]
      by_cases h3 : 3 ≤ ncc + 1
      · rw [if_pos h3]; omega
      · rw [if_neg h3]
        have := ih (i + 1) (counts i) (ncc + 1)
        omega
    · rw [if_neg h]
      have := ih (i + 1) (counts i) 0
      omega

lemma searchLoopAuxChanging (counts : Nat → Nat)
    (hstep : ∀ i, counts (i + 1) ≠ counts i) :
    ∀ (fuel i last : Nat) (ncc : Nat), counts i ≠ last →
      searchLoopAux counts fuel i last ncc = fuel := by
  intro fuel
  induction fuel with
  | zero => intro i last ncc _; rfl
  | succ fuel ih =>
    intro i last ncc hne
    unfold searchLoopAux
    rw [if_neg hne, ih (i + 1) (counts i) 0 (hstep i)]
    omega

lemma reviewsLoopAuxLe (heights : Nat → Nat) :
    ∀ (fuel i last : Nat), reviewsLoopAux heights fuel i last ≤ fuel := by
  intro fuel
  induction fuel with
  | zero => intro i last; exact Nat.le_refl 0
  | succ fuel ih =>
    intro i last
    unfold reviewsLoopAux
    by_cases h : heights i = last
    · rw [if_pos h]; omega
    · rw [if_neg h]
      have := ih (i + 1) (heights i)
      omega

lemma reviewsLoopAuxChanging (heights : Nat → Nat)
    (hstep : ∀ i, heights (i + 1) ≠ heights i) :
    ∀ (fuel i last : Nat), heights i ≠ last →
      reviewsLoopAux heights fuel i last = fuel := by
  intro fuel
  induction fuel with
  | zero => intro i last _; rfl
  | succ fuel ih =>
    intro i last hne
    unfold reviewsLoopAux
    rw [if_neg hne, ih (i + 1) (heights i) (hstep i)]
    omega

/-- C3 counterexample: a listing-search region whose measured count never
changes (constantly 5) makes the controller stop after 4 rounds — the
3-round stability rule fires — not at the hard cap of 20 as claimed. -/
theorem c3_cap_counterexample :
    (scroll_search_results ⟨[600], fun _ => 5⟩).rounds = 4 ∧ (4 : Nat) ≠ 20 := by
  exact ⟨by decide, by decide⟩

/-- C3 (amended): the listing-search loop stops when the measured count
is unchanged for 3 consecutive rounds or its 20-round cap is reached,
whichever comes first — so a never-changing region stops after 4 rounds
(3 if it constantly measures zero), while a region whose count changes
every round runs all 20 rounds.  The reviews panel measures
`scrollHeight` and stops on the first unchanged measurement or at its
10-round cap — a never-changing panel stops after 2 rounds (1 if the
height is zero). -/
theorem c3_scroll_termination :
    (∀ c : Nat, c ≠ 0 → searchScrollRounds (fun _ => c) = 4)
    ∧ searchScrollRounds (fun _ => 0) = 3
    ∧ (∀ counts : Nat → Nat, searchScrollRounds counts ≤ 20)
    ∧ (∀ counts : Nat → Nat, (∀ i, counts (i + 1) ≠ counts i) → counts 0 ≠ 0 →
        searchScrollRounds counts = 20)
    ∧ (∀ h : Nat, h ≠ 0 → reviewsScrollRounds (fun _ => h) = 2)
    ∧ reviewsScrollRounds (fun _ => 0) = 1
    ∧ (∀ heights : Nat → Nat, reviewsScrollRounds heights ≤ 10)
    ∧ (∀ heights : Nat → Nat, (∀ i, heights (i + 1) ≠ heights i) →
        heights 0 ≠ 0 → reviewsScrollRounds heights = 10) := by
  refine ⟨?_, by decide, fun counts => searchLoopAuxLe counts 20 0 0 0,
    fun counts hstep h0 => searchLoopAuxChanging counts hstep 20 0 0 0 h0,
    ?_, by decide, fun heights => reviewsLoopAuxLe heights 10 0 0,
    fun heights hstep h0 => reviewsLoopAuxChanging heights hstep 10 0 0 h0⟩
  · intro c hc
    unfold searchScrollRounds searchLoopAux
    rw [if_neg hc]
    simp only [searchLoopAux, if_pos rfl]
    norm_num
  · intro h hh
    unfold reviewsScrollRounds reviewsLoopAux
    rw [if_neg hh]
    unfold reviewsLoopAux
    rw [if_pos rfl]

/-- Witness for C3's amended clauses at concrete inputs: a constant
region (count 5) and a strictly growing region for each loop. -/
theorem c3_scroll_termination_witness :
    searchScrollRounds (fun _ => 5) = 4
    ∧ searchScrollRounds (fun i => i + 1) = 20
    ∧ reviewsScrollRounds (fun _ => 600) = 2
    ∧ reviewsScrollRounds (fun i => 600 + i) = 10 :=
  ⟨c3_scroll_termination.1 5 (by decide),
   c3_scroll_termination.2.2.2.1 (fun i => i + 1)
     (fun i => by show i + 1 + 1 ≠ i + 1; omega) (by decide),
   c3_scroll_termination.2.2.2.2.1 600 (by decide),
   c3_scroll_termination.2.2.2.2.2.2.2 (fun i => 600 + i)
     (fun i => by show 600 + (i + 1) ≠ 600 + i; omega) (by decide)⟩

/-- C4 counterexample: a located scrollable region whose final visible
count is 7 still yields `None` as the Python return value — the
controller does not return the final visible-item count to its caller. -/
theorem c4_retval_counterexample :
    (scroll_search_results ⟨[600], fun _ => 7⟩).retval = none
    ∧ (scroll_search_results ⟨[600], fun _ => 7⟩).retval ≠ some 7 := by
  exact ⟨rfl, by decide⟩

/-- C4 (amended): both scroll controllers return `None` (no value) to the
caller — the caller re-queries the visible items itself — and perform no
extraction; when no scrollable region can be located (no candidate with
positive height for listing search, none above 500 for the reviews
panel) the controller performs zero scroll rounds and returns, and the
caller proceeds non-fatally with whatever is already visible. -/
theorem c4_scroll_return_contract :
    (∀ env : SearchEnv, (scroll_search_results env).retval = none)
    ∧ (∀ env : SearchEnv,
        env.divHeights.find? (fun h => decide (0 < h)) = none →
        (scroll_search_results env).rounds = 0)
    ∧ (∀ env : ReviewsPanelEnv, (scroll_reviews_panel env).retval = none)
    ∧ (∀ env : ReviewsPanelEnv,
        env.candidateHeights.find? (fun h => decide (500 < h)) = none →
        (scroll_reviews_panel env).rounds = 0) := by
  refine ⟨fun env => ?_, fun env hf => ?_, fun env => ?_, fun env hf => ?_⟩
  · unfold scroll_search_results
    cases env.divHeights.find? (fun h => decide (0 < h)) <;> rfl
  · unfold scroll_search_results
    rw [hf]
  · unfold scroll_reviews_panel
    cases env.candidateHeights.find? (fun h => decide (500 < h)) <;> rfl
  · unfold scroll_reviews_panel
    rw [hf]

/-- Witness for C4 at concrete environments with no usable scrollable
region (empty candidate list; all candidates at height ≤ 500). -/
theorem c4_scroll_return_contract_witness :
    (scroll_search_results ⟨[], fun _ => 9⟩).rounds = 0
    ∧ (scroll_reviews_panel ⟨[400, 200], fun _ => 9⟩).rounds = 0 :=
  ⟨c4_scroll_return_contract.2.1 ⟨[], fun _ => 9⟩ rfl,
   c4_scroll_return_contract.2.2.2 ⟨[400, 200], fun _ => 9⟩ rfl⟩

/-- C5 counterexample: a block whose first name strategy locates the
invalid text `"More"` and whose remaining strategies locate nothing ends
with reviewer name `"More"` — all strategies failed (none located valid
content), yet the field does not take its documented default
`"Anonymous"`, because a located-but-invalid text stays assigned. -/
theorem c5_default_counterexample :
    extractReviewerName
        ⟨[some "More", none, none, none, none, none], none, 0, [], [], (0, 0)⟩
      = "More"
    ∧ ("More" : String) ≠ "Anonymous" :=
  ⟨by decide, by decide⟩

/-- C5 (amended): strategies are evaluated in order and the first that
locates content passing the field's validity predicate wins, with
subsequent strategies untried; a locate failure leaves the field
untouched, but a strategy that locates invalid content overwrites the
field and the chain continues — so when no strategy locates valid
content the field ends as the last located (invalid) text, and only when
no strategy locates anything does it keep the default.  For the rating,
the star-count fallback runs only when the aria-label locator throws; a
located aria-label that fails the regex yields 0 without the fallback. -/
theorem c5_fallback_chain :
    (∀ (cur t : String) (valid : String → Bool) (rest : List (Option String)),
      valid t = true → chainField cur valid (some t :: rest) = t)
    ∧ (∀ (cur : String) (valid : String → Bool) (rest : List (Option String)),
        chainField cur valid (none :: rest) = chainField cur valid rest)
    ∧ (∀ (cur t : String) (valid : String → Bool) (rest : List (Option String)),
        valid t = false → chainField cur valid (some t :: rest) = chainField t valid rest)
    ∧ (∀ (dflt : String) (valid : String → Bool) (l : List (Option String)),
        (∀ x ∈ l, x = none) → chainField dflt valid l = dflt)
    ∧ (∀ (dflt t2 t3 : String) (valid : String → Bool),
        valid t2 = false → valid t3 = true →
        chainField dflt valid [none, some t2, some t3] = t3)
    ∧ (∀ (b : ReviewBlock) (lbl : String), b.ariaLabel = some lbl →
        regexStarSearch lbl.toList = none → extractRating b = .pint 0)
    ∧ (∀ b : ReviewBlock, b.ariaLabel = none → b.filledStars ≠ 0 →
        extractRating b = .pint (b.filledStars : Int)) := by
  refine ⟨?_, ?_, ?_, ?_, ?_, ?_, ?_⟩
  · intro cur t valid rest h
    simp [chainField, h]
  · intro cur valid rest
    rfl
  · intro cur t valid rest h
    simp [chainField, h]
  · intro dflt valid l
    induction l with
    | nil => intro _; rfl
    | cons x rest ih =>
      intro h
      have hx := h x (by simp)
      subst hx
      exact ih fun y hy => h y (by simp [hy])
  · intro dflt t2 t3 valid h2 h3
    simp [chainField, h2, h3]
  · intro b lbl h1 h2
    simp only [extractRating, h1]
    rw [h2]
  · intro b h1 h2
    simp only [extractRating, h1]
    rw [if_pos h2]

/-- Witness for C5's amended clauses at concrete strategy outcomes. -/
theorem c5_fallback_chain_witness :
    chainField "Anonymous" nameValid [some "Alice"] = "Alice"
    ∧ chainField "Anonymous" nameValid [none, some "More", some "Sara"] = "Sara"
    ∧ chainField "Anonymous" nameValid [none, none] = "Anonymous"
    ∧ extractRating ⟨[], some "no stars here", 7, [], [], (0, 0)⟩ = .pint 0
    ∧ extractRating ⟨[], none, 3, [], [], (0, 0)⟩ = .pint 3 :=
  ⟨c5_fallback_chain.1 "Anonymous" "Alice" nameValid [] (by decide),
   c5_fallback_chain.2.2.2.2.1 "Anonymous" "More" "Sara" nameValid
     (by decide) (by decide),
   c5_fallback_chain.2.2.2.1 "Anonymous" nameValid [none, none] (by decide),
   c5_fallback_chain.2.2.2.2.2.1 ⟨[], some "no stars here", 7, [], [], (0, 0)⟩
     "no stars here" rfl (by decide),
   c5_fallback_chain.2.2.2.2.2.2 ⟨[], none, 3, [], [], (0, 0)⟩ rfl (by decide)⟩

lemma stringNeEmptyOfLen {s : String} (h : 5 < s.length) : s ≠ "" := by
  intro hrfl
  subst hrfl
  simp at h

lemma signalOkIff (e : Extracted) :
    signalOk e = true ↔ (0 < pyVal e.rating ∨ 5 < e.review_text.length) := by
  unfold signalOk
  simp only [Bool.or_eq_true, Bool.and_eq_true, decide_eq_true_eq, bne_iff_ne]
  constructor
  · rintro (h | ⟨_, h⟩)
    · exact Or.inl h
    · exact Or.inr h
  · rintro (h | h)
    · exact Or.inl h
    · exact Or.inr ⟨stringNeEmptyOfLen h, h⟩

/-- C6: a fully-extracted record reaching the admission code is appended
to the results (and its fingerprint recorded) iff its fingerprint is new
and it carries signal — a positive rating or a body longer than 5; a
record with neither is discarded silently, leaving both the accumulated
results and the seen-fingerprint set untouched. -/
theorem c6_admission_rule (br : BankBranch) (seen : List String)
    (acc : List Review) (e : Extracted) :
    (¬ (0 < pyVal e.rating ∨ 5 < e.review_text.length) →
      reviewStep br (seen, acc) e = (seen, acc))
    ∧ ((0 < pyVal e.rating ∨ 5 < e.review_text.length) →
        seen.contains (reviewKey e) = false →
        reviewStep br (seen, acc) e
          = (seen ++ [reviewKey e], acc ++ [mkReview br e]))
    ∧ (seen.contains (reviewKey e) = true →
        reviewStep br (seen, acc) e = (seen, acc)) := by
  refine ⟨?_, ?_, ?_⟩
  · intro h
    have hs : signalOk e = false := by
      rw [← Bool.not_eq_true, signalOkIff e]
      exact h
    simp [reviewStep, hs]
  · intro h hc
    have hs : signalOk e = true := (signalOkIff e).mpr h
    have hmem : reviewKey e ∉ seen := by simpa using hc
    simp [reviewStep, hs, hmem]
  · intro hc
    have hmem : reviewKey e ∈ seen := by simpa using hc
    simp [reviewStep, hmem]

/-- Witness for C6: a signal-bearing record is admitted from a fresh
scope; a rating-0, 3-character record is silently dropped. -/
theorem c6_admission_rule_witness :
    reviewStep ⟨"B", "N", "u", "addr", none, none⟩ ([], [])
        ⟨"Alice", .pint 5, "great bank", "a year ago"⟩
      = ([reviewKey ⟨"Alice", .pint 5, "great bank", "a year ago"⟩],
         [mkReview ⟨"B", "N", "u", "addr", none, none⟩
            ⟨"Alice", .pint 5, "great bank", "a year ago"⟩])
    ∧ reviewStep ⟨"B", "N", "u", "addr", none, none⟩ ([], [])
        ⟨"Anonymous", .pint 0, "meh", ""⟩ = ([], []) :=
  ⟨(c6_admission_rule ⟨"B", "N", "u", "addr", none, none⟩ [] []
      ⟨"Alice", .pint 5, "great bank", "a year ago"⟩).2.1
      (by decide) (by decide),
   (c6_admission_rule ⟨"B", "N", "u", "addr", none, none⟩ [] []
      ⟨"Anonymous", .pint 0, "meh", ""⟩).1 (by decide)⟩

lemma admitPairDup (br : BankBranch) (e1 e2 : Extracted)
    (hk : reviewKey e1 = reviewKey e2)
    (h1 : signalOk e1 = true) (_h2 : signalOk e2 = true) :
    admitReviews br [e1, e2] = [mkReview br e1] := by
  unfold admitReviews
  simp only [List.foldl]
  rw [show reviewStep br ([], []) e1 = ([reviewKey e1], [mkReview br e1]) from by
    simp [reviewStep, h1]]
  have hkk : reviewKey e2 = reviewKey e1 := hk.symm
  simp [reviewStep, hkk]

/-- C7: within one deduplication scope, two records with the same
fingerprint admit only the first; consequently two records equal in
name, rating and date phrase whose bodies agree on their first 50
characters — however they differ beyond — collide on the fingerprint
and only the first is kept. -/
theorem c7_fingerprint_scope (br : BankBranch) (e1 e2 : Extracted)
    (hk : reviewKey e1 = reviewKey e2)
    (h1 : signalOk e1 = true) (h2 : signalOk e2 = true) :
    admitReviews br [e1, e2] = [mkReview br e1]
    ∧ ∀ (name : String) (r : PyNum) (d t1 t2 : String),
        t1.take 50 = t2.take 50 →
        signalOk ⟨name, r, t1, d⟩ = true → signalOk ⟨name, r, t2, d⟩ = true →
        admitReviews br [⟨name, r, t1, d⟩, ⟨name, r, t2, d⟩]
          = [mkReview br ⟨name, r, t1, d⟩] := by
  refine ⟨admitPairDup br e1 e2 hk h1 h2, ?_⟩
  intro name r d t1 t2 ht hs1 hs2
  refine admitPairDup br _ _ ?_ hs1 hs2
  unfold reviewKey
  simp only [ht]

/-- Witness for C7 with two 55-character bodies sharing their first 50
characters and differing in the last 5. -/
theorem c7_fingerprint_scope_witness :
    admitReviews ⟨"B", "N", "u", "addr", none, none⟩
        [⟨"Alice", .pint 4,
           "aaaaaaaaaaaaaaaaaaaaaaaaaaaaaaaaaaaaaaaaaaaaaaaaaa11111", "a year ago"⟩,
         ⟨"Alice", .pint 4,
           "aaaaaaaaaaaaaaaaaaaaaaaaaaaaaaaaaaaaaaaaaaaaaaaaaa22222", "a year ago"⟩]
      = [mkReview ⟨"B", "N", "u", "addr", none, none⟩
           ⟨"Alice", .pint 4,
             "aaaaaaaaaaaaaaaaaaaaaaaaaaaaaaaaaaaaaaaaaaaaaaaaaa11111", "a year ago"⟩] :=
  (c7_fingerprint_scope ⟨"B", "N", "u", "addr", none, none⟩
      ⟨"x", .pint 1, "y", "z"⟩ ⟨"x", .pint 1, "y", "z"⟩ rfl
      (by decide) (by decide)).2
    "Alice" (.pint 4) "a year ago"
    "aaaaaaaaaaaaaaaaaaaaaaaaaaaaaaaaaaaaaaaaaaaaaaaaaa11111"
    "aaaaaaaaaaaaaaaaaaaaaaaaaaaaaaaaaaaaaaaaaaaaaaaaaa22222"
    (by decide) (by decide) (by decide)

/-- C10: the fingerprint is a `|`-joined string, not a structured tuple,
so it is not injective in its components: a reviewer name containing `|`
shifts content between components, making two records that differ in
name, body and date collide on the fingerprint; the second is dropped as
a duplicate although no component-wise equality holds. -/
theorem c10_fingerprint_not_injective :
    reviewKey ⟨"n|5", .pint 5, "hello", "d"⟩
        = reviewKey ⟨"n", .pint 5, "5|hello", "d"⟩
    ∧ ("n|5" : String) ≠ "n"
    ∧ ("hello" : String) ≠ "5|hello"
    ∧ admitReviews ⟨"B", "N", "u", "addr", none, none⟩
          [⟨"n|5", .pint 5, "hello", "d"⟩, ⟨"n", .pint 5, "5|hello", "d"⟩]
        = [mkReview ⟨"B", "N", "u", "addr", none, none⟩
             ⟨"n|5", .pint 5, "hello", "d"⟩] :=
  ⟨by decide, by decide, by decide, by decide⟩

/-- C8 counterexample: two listing blocks at the same on-page position
but with different URLs both survive `extract_branch_links` — field
extraction runs on both and both records are emitted, so position-
coincident listing blocks are not dropped before field extraction. -/
theorem c8_position_counterexample :
    (⟨"u1", none, [], none, none, (5, 5)⟩ : ListingBlock).loc
        = (⟨"u2", none, [], none, none, (5, 5)⟩ : ListingBlock).loc
    ∧ (extract_branch_links "Bank"
        [⟨"u1", none, [], none, none, (5, 5)⟩,
         ⟨"u2", none, [], none, none, (5, 5)⟩]).length = 2
    ∧ (2 : Nat) ≠ 1 :=
  ⟨rfl, by decide, by decide⟩

lemma locDedupAuxIdem :
    ∀ (l : List ReviewBlock) (seen : List String),
      locDedupAux seen (locDedupAux seen l) = locDedupAux seen l := by
  intro l
  induction l with
  | nil => intro seen; rfl
  | cons b rest ih =>
    intro seen
    by_cases h : seen.contains (locKey b) = true
    · simp only [locDedupAux, if_pos h]
      exact ih seen
    · rw [locDedupAux, if_neg h, locDedupAux, if_neg h]
      rw [ih (seen ++ [locKey b])]

/-- C8 (amended): the geometric-position pre-dedup runs for review
candidate blocks on a detail page — `extract_reviews_from_page` is
invariant under removing position duplicates, because it drops them
before field extraction.  Listing blocks are not position-filtered:
`extract_branch_links` extracts a record from every candidate block and
deduplicates afterwards by URL, so a listing with 5 raw candidate blocks
where blocks 4 and 5 re-surface the URLs of blocks 1 and 2 yields
exactly 3 Branch records. -/
theorem c8_pre_dedup_passes :
    (∀ (br : BankBranch) (blocks : List ReviewBlock),
      extract_reviews_from_page br blocks
        = extract_reviews_from_page br (locDedup blocks))
    ∧ (∀ (bank : String) (b1 b2 b3 b4 b5 : ListingBlock),
        b4.url = b1.url → b5.url = b2.url →
        b1.url ≠ b2.url → b1.url ≠ b3.url → b2.url ≠ b3.url →
        (extract_branch_links bank [b1, b2, b3, b4, b5]).length = 3) := by
  constructor
  · intro br blocks
    unfold extract_reviews_from_page locDedup
    rw [locDedupAuxIdem]
  · intro bank b1 b2 b3 b4 b5 h41 h52 h12 h13 h23
    have e1 : (extractBranch bank b1).branch_url = b1.url := rfl
    have e2 : (extractBranch bank b2).branch_url = b2.url := rfl
    have e3 : (extractBranch bank b3).branch_url = b3.url := rfl
    have e4 : (extractBranch bank b4).branch_url = b4.url := rfl
    have e5 : (extractBranch bank b5).branch_url = b5.url := rfl
    unfold extract_branch_links
    simp only [List.map_cons, List.map_nil]
    rw [urlDedupAux, if_neg (by simp)]
    rw [urlDedupAux, if_neg (by simp [e1, e2]; exact fun h => h12 h.symm)]
    rw [urlDedupAux, if_neg (by
      simp [e1, e2, e3]
      exact ⟨fun h => h13 h.symm, fun h => h23 h.symm⟩)]
    rw [urlDedupAux, if_pos (by simp [e1, e4, h41])]
    rw [urlDedupAux, if_pos (by simp [e2, e5, h52])]
    rfl

/-- Witness for C8's amended clauses: a concrete review-block list with
a position duplicate, and the concrete five-block listing scenario. -/
theorem c8_pre_dedup_passes_witness :
    extract_reviews_from_page ⟨"B", "N", "u", "addr", none, none⟩
        [⟨[some "Alice"], some "5 stars", 0, [], [], (1, 1)⟩,
         ⟨[some "Bob"], some "4 stars", 0, [], [], (1, 1)⟩]
      = extract_reviews_from_page ⟨"B", "N", "u", "addr", none, none⟩
          (locDedup
            [⟨[some "Alice"], some "5 stars", 0, [], [], (1, 1)⟩,
             ⟨[some "Bob"], some "4 stars", 0, [], [], (1, 1)⟩])
    ∧ (extract_branch_links "Bank"
        [⟨"u1", none, [], none, none, (0, 0)⟩,
         ⟨"u2", none, [], none, none, (0, 1)⟩,
         ⟨"u3", none, [], none, none, (0, 2)⟩,
         ⟨"u1", none, [], none, none, (0, 0)⟩,
         ⟨"u2", none, [], none, none, (0, 1)⟩]).length = 3 :=
  ⟨c8_pre_dedup_passes.1 ⟨"B", "N", "u", "addr", none, none⟩
      [⟨[some "Alice"], some "5 stars", 0, [], [], (1, 1)⟩,
       ⟨[some "Bob"], some "4 stars", 0, [], [], (1, 1)⟩],
   c8_pre_dedup_passes.2 "Bank"
      ⟨"u1", none, [], none, none, (0, 0)⟩
      ⟨"u2", none, [], none, none, (0, 1)⟩
      ⟨"u3", none, [], none, none, (0, 2)⟩
      ⟨"u1", none, [], none, none, (0, 0)⟩
      ⟨"u2", none, [], none, none, (0, 1)⟩
      rfl rfl (by decide) (by decide) (by decide)⟩

/-- C9 counterexample: a review block whose star image carries the
aria-label `"7 stars"` is emitted with rating 7 — the code parses the
digits with no clamping, so the emitted rating leaves [0, 5]. -/
theorem c9_rating_range_counterexample :
    (extract_reviews_from_page ⟨"B", "N", "u", "addr", none, none⟩
        [⟨[some "Alice"], some "7 stars", 0, [], [], (0, 0)⟩]).map
        (fun r => pyVal r.rating)
      = [mkRat 7 1]
    ∧ ¬ (mkRat 7 1 ≤ mkRat 5 1) :=
  ⟨by decide, by decide⟩

/-- C9 (amended): ratings are parsed from the extracted text with no
clamping.  Review ratings are always non-negative, and lie in [0, 5]
exactly when the text's numeric content does (aria-label digits ≤ 5,
star count ≤ 5) — which genuine markup satisfies; likewise a branch
rating, when present, lies in [0, 5] whenever its rating text denotes a
number in [0, 5]. -/
theorem c9_rating_range :
    (∀ b : ReviewBlock, 0 ≤ pyVal (extractRating b))
    ∧ (∀ b : ReviewBlock, ratingSourceBounded b = true →
        pyVal (extractRating b) ≤ 5)
    ∧ (∀ (b : ListingBlock) (q : ℚ), branchRating b = some q →
        branchRatingBounded b = true → 0 ≤ q ∧ q ≤ 5) := by
  refine ⟨?_, ?_, ?_⟩
  · intro b
    rcases hA : b.ariaLabel with _ | lbl
    · simp only [extractRating, hA]
      by_cases hs : b.filledStars ≠ 0
      · rw [if_pos hs]
        simp only [pyVal]
        positivity
      · rw [if_neg hs]
        simp [pyVal]
    · rcases hR : regexStarSearch lbl.data with _ | ds
      · simp [extractRating, hA, String.toList, hR, pyVal]
      · simp only [extractRating, hA, String.toList, hR, pyVal, Rat.mkRat_one]
        positivity
  · intro b hb
    rcases hA : b.ariaLabel with _ | lbl
    · simp only [ratingSourceBounded, hA, decide_eq_true_eq] at hb
      simp only [extractRating, hA]
      by_cases hs : b.filledStars ≠ 0
      · rw [if_pos hs]
        simp only [pyVal]
        exact_mod_cast hb
      · rw [if_neg hs]
        simp [pyVal]
    · rcases hR : regexStarSearch lbl.data with _ | ds
      · simp [extractRating, hA, String.toList, hR, pyVal]
      · simp only [ratingSourceBounded, hA, String.toList, hR, decide_eq_true_eq] at hb
        simp only [extractRating, hA, String.toList, hR, pyVal, Rat.mkRat_one]
        exact_mod_cast hb
  · intro b q hq hb
    rcases hT : b.ratingText with _ | t
    · simp only [branchRating, hT] at hq
      exact Option.noConfusion hq
    · simp only [branchRating, hT] at hq
      simp only [branchRatingBounded, hT, hq, decide_eq_true_eq] at hb
      exact hb

/-- Witness for C9 at in-range concrete blocks: a 5-star aria-label, a
3-filled-star fallback, and a branch rating text `"4.2"`. -/
theorem c9_rating_range_witness :
    pyVal (extractRating ⟨[], some "5 stars", 0, [], [], (0, 0)⟩) ≤ 5
    ∧ pyVal (extractRating ⟨[], none, 3, [], [], (0, 0)⟩) ≤ 5
    ∧ (0 ≤ mkRat 21 5 ∧ mkRat 21 5 ≤ 5) :=
  ⟨c9_rating_range.2.1 ⟨[], some "5 stars", 0, [], [], (0, 0)⟩ (by decide),
   c9_rating_range.2.1 ⟨[], none, 3, [], [], (0, 0)⟩ (by decide),
   c9_rating_range.2.2 ⟨"u", none, [], some "4.2", none, (0, 0)⟩ (mkRat 21 5)
     (by decide) (by decide)⟩
